import Mathlib

/-!
# MyProject3Character: a shallow embedding

Embedding of `Source/MyProject3/MyProject3Character.cpp`.

* `float` values are rationals (`ℚ`): arithmetic is exact.
* Object pointers are `Option`s; dereferencing `none` is the fault
  `Fault.nullDeref`.  `TArray::operator[]` outside the array is the fault
  `Fault.indexOutOfRange`; a failed `check(...)` is `Fault.assertion`.
* Calls into the engine that only have an effect on engine objects are
  recorded, in order, as a list of `EngineCall`s returned next to the new
  state of the character.
* The values returned by the engine's random functions are inputs of the
  embedded functions (`Draws`).
-/

namespace MyProject3

/-! ## Engine data -/

/-- Ways in which a call can stop without returning. -/
inductive Fault where
  | nullDeref
  | indexOutOfRange
  | assertion
  | drawsExhausted
  deriving DecidableEq, Repr

/-- The engine's `FLinearColor`: four float channels. -/
structure FLinearColor where
  R : ℚ
  G : ℚ
  B : ℚ
  A : ℚ
  deriving DecidableEq, Repr

/-- The engine's `FRotator`, in the order of its constructor: pitch, yaw, roll. -/
structure FRotator where
  Pitch : ℚ
  Yaw : ℚ
  Roll : ℚ
  deriving DecidableEq, Repr

/-- The engine's `FVector`. -/
structure FVector where
  X : ℚ
  Y : ℚ
  Z : ℚ
  deriving DecidableEq, Repr

/-- The engine's `EAxis::Type` values used by the character. -/
inductive EAxis where
  | X
  | Y
  | Z
  deriving DecidableEq, Repr

/-- A controller, as far as the character reads it: `GetControlRotation()`. -/
structure AController where
  ControlRotation : FRotator
  deriving DecidableEq, Repr

/-- A `UMaterial`, identified by a handle. -/
structure UMaterial where
  id : Nat
  deriving DecidableEq, Repr

/-- A `UMaterialInterface`: `GetMaterial()` gives its base material (maybe null). -/
structure UMaterialInterface where
  Material : Option UMaterial
  deriving DecidableEq, Repr

/-- A `UMaterialInstanceDynamic`, identified by a handle. -/
structure UMaterialInstanceDynamic where
  id : Nat
  deriving DecidableEq, Repr

/-- A `UTexture`, identified by a handle. -/
structure UTexture where
  id : Nat
  deriving DecidableEq, Repr

/-- A `UStaticMeshComponent`: a handle and what `GetMaterial(0)` returns. -/
structure UStaticMeshComponent where
  id : Nat
  Material0 : Option UMaterialInterface
  deriving DecidableEq, Repr

/-- An `AActor`: its tags and what
`GetComponentByClass(UStaticMeshComponent::StaticClass())` returns. -/
structure AActor where
  Tags : List String
  StaticMesh : Option UStaticMeshComponent
  deriving DecidableEq, Repr

/-- The world, as far as `BeginPlay` reads it: its actors. -/
structure UWorld where
  Actors : List AActor
  deriving DecidableEq, Repr

/-- Engine calls made by the character that act on engine objects. -/
inductive EngineCall where
  | SetMaterial (mesh : Nat) (slot : Nat) (mid : UMaterialInstanceDynamic)
  | SetTextureParameterValue (mid : UMaterialInstanceDynamic) (name : String) (tex : UTexture)
  | SetVectorParameterValue (mid : UMaterialInstanceDynamic) (name : String) (v : FLinearColor)
  | SetScalarParameterValue (mid : UMaterialInstanceDynamic) (name : String) (x : ℚ)
  | AddMovementInput (dir : FVector) (scale : ℚ)
  | AddControllerYawInput (x : ℚ)
  | AddControllerPitchInput (x : ℚ)
  deriving DecidableEq, Repr

/-! ## Input bindings -/

/-- The engine's `EInputEvent` values used by the character. -/
inductive EInputEvent where
  | IE_Pressed
  | IE_Released
  deriving DecidableEq, Repr

/-- The member functions that `SetupPlayerInputComponent` binds. -/
inductive Handler where
  | Jump
  | StopJumping
  | ChangeMaterialParams
  | OnResetVR
  | MoveForward
  | MoveRight
  | AddControllerYawInput
  | TurnAtRate
  | AddControllerPitchInput
  | LookUpAtRate
  | TouchStarted
  | TouchStopped
  deriving DecidableEq, Repr

/-- One registration on a `UInputComponent`. -/
inductive Binding where
  | action (name : String) (ev : EInputEvent) (h : Handler)
  | axis (name : String) (h : Handler)
  | touch (ev : EInputEvent) (h : Handler)
  deriving DecidableEq, Repr

/-- A `UInputComponent`: the bindings registered on it, oldest first. -/
structure UInputComponent where
  Bindings : List Binding
  deriving DecidableEq, Repr

/-! ## The character -/

/-- The fields of `AMyProject3Character` that the source file reads or writes
(the camera components and the movement component configuration aside). -/
structure Character where
  BaseTurnRate : ℚ
  BaseLookUpRate : ℚ
  Controller : Option AController
  Cube : Option AActor
  MaterialInstanceDynamic : Option UMaterialInstanceDynamic
  Textures : List UTexture
  VectorParam : FLinearColor
  ScalarParam : ℚ
  bDefault : Bool
  deriving DecidableEq, Repr

/-- The values the engine's random functions return during one call of
`ChangeMaterialParams`. -/
structure Draws where
  /-- Value of `RandomIntegerInRange(0, Textures.Num() - 1)`. -/
  texture : Int
  /-- Value of `RandomFloatInRange(0, 0.2)`. -/
  delta : ℚ
  /-- Successive values of `RandomIntegerInRange(0, 2)`. -/
  inds : List Int
  deriving DecidableEq, Repr

/-- Dereference of a pointer. -/
def deref {α : Type} : Option α → Except Fault α
  | some a => .ok a
  | none => .error .nullDeref

/-- The range-checked `TArray::operator[]` with an `int` index. -/
def TArrayGet {α : Type} (xs : List α) (i : Int) : Except Fault α :=
  if 0 ≤ i then
    match xs[i.toNat]? with
    | some x => .ok x
    | none => .error .indexOutOfRange
  else .error .indexOutOfRange

/-- Assignment `xs[i] = v` through the range-checked `TArray::operator[]`. -/
def TArraySet {α : Type} (xs : List α) (i : Int) (v : α) : Except Fault (List α) :=
  if 0 ≤ i ∧ i.toNat < xs.length then .ok (xs.set i.toNat v)
  else .error .indexOutOfRange

/-- The constructor: the fields it assigns, over the class's default member
values `init` (declared in the header). -/
def AMyProject3Character (init : Character) : Character :=
  { init with BaseTurnRate := 45, BaseLookUpRate := 45 }

/-- The bindings of `SetupPlayerInputComponent`, in source order. -/
def SetupPlayerInputComponent (PlayerInputComponent : Option UInputComponent) :
    Except Fault UInputComponent :=
  match PlayerInputComponent with
  | none => .error .assertion
  | some p =>
    .ok { Bindings := p.Bindings ++
      [ Binding.action "Jump" .IE_Pressed .Jump,
        Binding.action "Jump" .IE_Released .StopJumping,
        Binding.action "ChangeMaterial" .IE_Pressed .ChangeMaterialParams,
        Binding.axis "MoveForward" .MoveForward,
        Binding.axis "MoveRight" .MoveRight,
        Binding.axis "Turn" .AddControllerYawInput,
        Binding.axis "TurnRate" .TurnAtRate,
        Binding.axis "LookUp" .AddControllerPitchInput,
        Binding.axis "LookUpRate" .LookUpAtRate,
        Binding.touch .IE_Pressed .TouchStarted,
        Binding.touch .IE_Released .TouchStopped,
        Binding.action "ResetVR" .IE_Pressed .OnResetVR ] }

/-- The `for (auto color : rgba)` scan: false at the first channel that is not 1. -/
def scanAll1 : List ℚ → Bool
  | [] => true
  | color :: rest => if color ≠ 1 then false else scanAll1 rest

/-- The value of `bIsAll1` after line 137. -/
def bIsAll1 (c : Character) : Bool :=
  scanAll1 [c.VectorParam.R, c.VectorParam.G, c.VectorParam.B, c.VectorParam.A]
    && decide (c.ScalarParam = 1)

/-- Lines 124 to 144: the array `rgba`, `ScalarParam` and the engine calls made,
at the point where the random delta is drawn.  The argument `Textures[...]` is
evaluated before `SetTextureParameterValue` runs on the material instance. -/
def resetPhase (texture : Int) (c : Character) :
    Except Fault (List ℚ × ℚ × List EngineCall) :=
  let rgba := [c.VectorParam.R, c.VectorParam.G, c.VectorParam.B, c.VectorParam.A]
  if bIsAll1 c || c.bDefault then do
    let tex ← TArrayGet c.Textures texture
    let mid ← deref c.MaterialInstanceDynamic
    pure ([0, 0, 0, 0], 0, [EngineCall.SetTextureParameterValue mid "TextureParam" tex])
  else
    pure (rgba, c.ScalarParam, [])

/-- The `do ... while (rgba[ind] == 1)` loop over the successive draws: the
first draw whose channel is not 1.  It stops with `drawsExhausted` when the
draws supplied are all rejected. -/
def pickInd (rgba : List ℚ) : List Int → Except Fault Int
  | [] => .error .drawsExhausted
  | ind :: rest => do
    let x ← TArrayGet rgba ind
    if x = 1 then pickInd rgba rest else pure ind

/-- The clamp `if (x > 1) x = 1`. -/
def clampTo1 (x : ℚ) : ℚ := if x > 1 then 1 else x

/-- Lines 155 to 178: the step taken with the accepted index `ind` on the array
`rgba` and the scalar left by lines 124 to 144. -/
def bumpPhase (c : Character) (rgba : List ℚ) (scalar : ℚ) (delta : ℚ) (ind : Int) :
    Except Fault (Character × List EngineCall) := do
  let x ← TArrayGet rgba ind
  let rgba ← TArraySet rgba ind (clampTo1 (x + delta))
  let a ← TArrayGet rgba 3
  let rgba ← TArraySet rgba 3 (clampTo1 (a + delta))
  let r0 ← TArrayGet rgba 0
  let r1 ← TArrayGet rgba 1
  let r2 ← TArrayGet rgba 2
  let r3 ← TArrayGet rgba 3
  let VectorParam := FLinearColor.mk r0 r1 r2 r3
  let ScalarParam := clampTo1 (scalar + delta)
  let mid ← deref c.MaterialInstanceDynamic
  pure ({ c with VectorParam := VectorParam, ScalarParam := ScalarParam, bDefault := false },
    [EngineCall.SetVectorParameterValue mid "VectorParam" VectorParam,
     EngineCall.SetScalarParameterValue mid "ScalarParam" ScalarParam])

/-- `AMyProject3Character::ChangeMaterialParams`. -/
def ChangeMaterialParams (d : Draws) (c : Character) :
    Except Fault (Character × List EngineCall) := do
  let (rgba, scalar, calls) ← resetPhase d.texture c
  let delta := d.delta
  let ind ← pickInd rgba d.inds
  let (c, calls2) ← bumpPhase c rgba scalar delta ind
  pure (c, calls ++ calls2)

/-- `AMyProject3Character::GetDynamicMaterialInstance`.  `Create` is the engine's
`UMaterialInstanceDynamic::Create(Material, this)`. -/
def GetDynamicMaterialInstance
    (Create : Option UMaterial → Option UMaterialInstanceDynamic) (c : Character) :
    Except Fault (Character × List EngineCall) := do
  let cube ← deref c.Cube
  let CubeMesh := cube.StaticMesh
  let Material ←
    match CubeMesh with
    | some mesh => do
      let mi ← deref mesh.Material0
      pure mi.Material
    | none => pure none
  let mid := Create Material
  let calls :=
    match CubeMesh, mid with
    | some mesh, some m => [EngineCall.SetMaterial mesh.id 0 m]
    | _, _ => []
  pure ({ c with MaterialInstanceDynamic := mid }, calls)

/-- `UGameplayStatics::GetAllActorsWithTag`. -/
def GetAllActorsWithTag (w : UWorld) (tag : String) : List AActor :=
  w.Actors.filter (fun a => decide (tag ∈ a.Tags))

/-- `AMyProject3Character::BeginPlay`. -/
def BeginPlay (w : UWorld) (Create : Option UMaterial → Option UMaterialInstanceDynamic)
    (d : Draws) (c : Character) : Except Fault (Character × List EngineCall) := do
  let Cubes := GetAllActorsWithTag w "Cube"
  let c ←
    if Cubes.length ≠ 0 then do
      let cube ← TArrayGet Cubes 0
      pure { c with Cube := some cube }
    else pure c
  let (c, calls1) ← GetDynamicMaterialInstance Create c
  let c := { c with bDefault := true }
  let (c, calls2) ← ChangeMaterialParams d c
  pure (c, calls1 ++ calls2)

/-- `AMyProject3Character::TurnAtRate`; `DeltaSeconds` is
`GetWorld()->GetDeltaSeconds()`. -/
def TurnAtRate (DeltaSeconds : ℚ) (Rate : ℚ) (c : Character) : Character × List EngineCall :=
  (c, [EngineCall.AddControllerYawInput (Rate * c.BaseTurnRate * DeltaSeconds)])

/-- `AMyProject3Character::LookUpAtRate`. -/
def LookUpAtRate (DeltaSeconds : ℚ) (Rate : ℚ) (c : Character) : Character × List EngineCall :=
  (c, [EngineCall.AddControllerPitchInput (Rate * c.BaseLookUpRate * DeltaSeconds)])

/-- `AMyProject3Character::MoveForward`; `GetUnitAxis R a` is the engine's
`FRotationMatrix(R).GetUnitAxis(a)`. -/
def MoveForward (GetUnitAxis : FRotator → EAxis → FVector) (Value : ℚ) (c : Character) :
    Character × List EngineCall :=
  match c.Controller with
  | some Controller =>
    if Value ≠ 0 then
      let Rotation := Controller.ControlRotation
      let YawRotation := FRotator.mk 0 Rotation.Yaw 0
      let Direction := GetUnitAxis YawRotation EAxis.X
      (c, [EngineCall.AddMovementInput Direction Value])
    else (c, [])
  | none => (c, [])

/-- `AMyProject3Character::MoveRight`. -/
def MoveRight (GetUnitAxis : FRotator → EAxis → FVector) (Value : ℚ) (c : Character) :
    Character × List EngineCall :=
  match c.Controller with
  | some Controller =>
    if Value ≠ 0 then
      let Rotation := Controller.ControlRotation
      let YawRotation := FRotator.mk 0 Rotation.Yaw 0
      let Direction := GetUnitAxis YawRotation EAxis.Y
      (c, [EngineCall.AddMovementInput Direction Value])
    else (c, [])
  | none => (c, [])

/-! ## Vocabulary of the specification -/

/-- The "all ones" condition: the four channels and `ScalarParam` equal 1. -/
def AllOnes (c : Character) : Prop :=
  c.VectorParam.R = 1 ∧ c.VectorParam.G = 1 ∧ c.VectorParam.B = 1 ∧
    c.VectorParam.A = 1 ∧ c.ScalarParam = 1

instance (c : Character) : Decidable (AllOnes c) := by
  unfold AllOnes; infer_instance

/-- The call resets: `bDefault` is set, or the state is all ones at entry. -/
def Resets (c : Character) : Prop := c.bDefault = true ∨ AllOnes c

instance (c : Character) : Decidable (Resets c) := by
  unfold Resets; infer_instance

/-- The colour the step starts from: all zero when the call resets, the entry
colour otherwise. -/
def baseVector (c : Character) : FLinearColor :=
  if Resets c then ⟨0, 0, 0, 0⟩ else c.VectorParam

/-- The scalar the step starts from: zero when the call resets, the entry
scalar otherwise. -/
def baseScalar (c : Character) : ℚ :=
  if Resets c then 0 else c.ScalarParam

/-- Channel `i` of a colour: 0 is R, 1 is G, 2 is B, anything else is A. -/
def channel (v : FLinearColor) (i : Int) : ℚ :=
  if i = 0 then v.R else if i = 1 then v.G else if i = 2 then v.B else v.A

/-- One bounded step: channel `i` and the alpha channel move up by `delta`,
capped at 1; the other channels keep their value. -/
def stepVector (v : FLinearColor) (i : Int) (delta : ℚ) : FLinearColor where
  R := if i = 0 then min 1 (v.R + delta) else v.R
  G := if i = 1 then min 1 (v.G + delta) else v.G
  B := if i = 2 then min 1 (v.B + delta) else v.B
  A := min 1 (v.A + delta)

/-- The engine's contract on the draws of one call: the delta lies in
`[0, 0.2]` and every index drawn lies in `{0, 1, 2}`. -/
def Draws.InRange (d : Draws) : Prop :=
  0 ≤ d.delta ∧ d.delta ≤ 1 / 5 ∧ ∀ i ∈ d.inds, 0 ≤ i ∧ i ≤ 2

/-- The states of the character after `BeginPlay` has returned and any number
of calls of `ChangeMaterialParams` have returned, with draws in range. -/
inductive Reachable : Character → Prop where
  | beginPlay (w : UWorld) (Create : Option UMaterial → Option UMaterialInstanceDynamic)
      (d : Draws) (c0 c : Character) (calls : List EngineCall) :
      d.InRange → BeginPlay w Create d c0 = .ok (c, calls) → Reachable c
  | step (d : Draws) (c c2 : Character) (calls : List EngineCall) :
      Reachable c → d.InRange → ChangeMaterialParams d c = .ok (c2, calls) → Reachable c2

/-- The parameter values are well-formed: channels in `[0, 1]`, alpha equal to
the scalar, and R + G + B at most alpha while alpha is below 1. -/
structure Good (v : FLinearColor) (s : ℚ) : Prop where
  R0 : 0 ≤ v.R
  R1 : v.R ≤ 1
  G0 : 0 ≤ v.G
  G1 : v.G ≤ 1
  B0 : 0 ≤ v.B
  B1 : v.B ≤ 1
  A0 : 0 ≤ v.A
  A1 : v.A ≤ 1
  lockstep : v.A = s
  budget : v.A < 1 → v.R + v.G + v.B ≤ v.A

/-- The invariant of the reachable states. -/
def Inv (c : Character) : Prop :=
  c.bDefault = false ∧ Good c.VectorParam c.ScalarParam

/-! ## Concrete scenes -/

/-- A world with one actor tagged "Cube" that has a static mesh with a material. -/
def exWorld : UWorld :=
  ⟨[⟨["Cube"], some ⟨1, some ⟨some ⟨2⟩⟩⟩⟩]⟩

/-- An engine whose `UMaterialInstanceDynamic::Create` always succeeds. -/
def exCreate : Option UMaterial → Option UMaterialInstanceDynamic :=
  fun _ => some ⟨9⟩

/-- A character before `BeginPlay`, with one texture and a controller. -/
def exInit : Character where
  BaseTurnRate := 45
  BaseLookUpRate := 45
  Controller := some ⟨⟨10, 90, 5⟩⟩
  Cube := none
  MaterialInstanceDynamic := none
  Textures := [⟨7⟩]
  VectorParam := ⟨5, 5, 5, 5⟩
  ScalarParam := 3
  bDefault := false

/-- Draws of one call: texture 0, delta 0.2, index 1 drawn first. -/
def exDraws : Draws := ⟨0, 1 / 5, [1]⟩

/-- The character `exInit` after `BeginPlay` in `exWorld` with `exDraws`. -/
def exSpawned : Character where
  BaseTurnRate := 45
  BaseLookUpRate := 45
  Controller := some ⟨⟨10, 90, 5⟩⟩
  Cube := some ⟨["Cube"], some ⟨1, some ⟨some ⟨2⟩⟩⟩⟩
  MaterialInstanceDynamic := some ⟨9⟩
  Textures := [⟨7⟩]
  VectorParam := ⟨0, 1 / 5, 0, 1 / 5⟩
  ScalarParam := 1 / 5
  bDefault := false

/-- The engine calls of `BeginPlay` on `exInit`. -/
def exSpawnCalls : List EngineCall :=
  [ EngineCall.SetMaterial 1 0 ⟨9⟩,
    EngineCall.SetTextureParameterValue ⟨9⟩ "TextureParam" ⟨7⟩,
    EngineCall.SetVectorParameterValue ⟨9⟩ "VectorParam" ⟨0, 1 / 5, 0, 1 / 5⟩,
    EngineCall.SetScalarParameterValue ⟨9⟩ "ScalarParam" (1 / 5) ]

/-- The character `exSpawned` after one more call with `exDraws`. -/
def exSecond : Character :=
  { exSpawned with VectorParam := ⟨0, 2 / 5, 0, 2 / 5⟩, ScalarParam := 2 / 5 }

/-- The engine calls of `ChangeMaterialParams` on `exSpawned`. -/
def exSecondCalls : List EngineCall :=
  [ EngineCall.SetVectorParameterValue ⟨9⟩ "VectorParam" ⟨0, 2 / 5, 0, 2 / 5⟩,
    EngineCall.SetScalarParameterValue ⟨9⟩ "ScalarParam" (2 / 5) ]

/-- The concrete character with colour `(r, g, b, a)` and scalar `a`. -/
def exAt (r g b a : ℚ) : Character :=
  { exSpawned with VectorParam := ⟨r, g, b, a⟩, ScalarParam := a }

/-- A state outside the reachable ones: R, G, B are 1 while alpha and the
scalar are not. -/
def exStuck : Character :=
  { exSpawned with VectorParam := ⟨1, 1, 1, 1 / 2⟩, ScalarParam := 1 / 2 }

/-- A rotation-matrix axis function for concrete evaluation (not the engine's
trigonometric one): it records the rotation it is given. -/
def exUnitAxis : FRotator → EAxis → FVector :=
  fun r a =>
    match a with
    | EAxis.X => ⟨r.Pitch, r.Yaw, r.Roll⟩
    | EAxis.Y => ⟨r.Roll, r.Pitch, r.Yaw⟩
    | EAxis.Z => ⟨r.Yaw, r.Roll, r.Pitch⟩

/-! ## Lemmas on the building blocks -/

theorem clampTo1_eq_min (x : ℚ) : clampTo1 x = min 1 x := by
  unfold clampTo1
  rcases le_or_lt x 1 with h | h
  · rw [if_neg (not_lt.mpr h), min_eq_right h]
  · rw [if_pos h, min_eq_left h.le]

theorem bIsAll1_iff (c : Character) : bIsAll1 c = true ↔ AllOnes c := by
  simp [bIsAll1, scanAll1, AllOnes]
  tauto

theorem resetCond_iff (c : Character) : (bIsAll1 c || c.bDefault) = true ↔ Resets c := by
  rw [Bool.or_eq_true, bIsAll1_iff, Resets]
  tauto

theorem TArrayGet_rgba (v : FLinearColor) (i : Int) (h0 : 0 ≤ i) (h3 : i ≤ 3) :
    TArrayGet [v.R, v.G, v.B, v.A] i = .ok (channel v i) := by
  have : i = 0 ∨ i = 1 ∨ i = 2 ∨ i = 3 := by omega
  rcases this with h | h | h | h <;> subst h <;> simp [TArrayGet, channel]

theorem pickInd_ok (v : FLinearColor) (inds : List Int) (i : Int)
    (hin : ∀ j ∈ inds, 0 ≤ j ∧ j ≤ 2)
    (h : pickInd [v.R, v.G, v.B, v.A] inds = .ok i) :
    i ∈ inds ∧ channel v i ≠ 1 := by
  induction inds with
  | nil => simp [pickInd] at h
  | cons j rest ih =>
    have hj := hin j (List.mem_cons_self _ _)
    have hrest : ∀ k ∈ rest, 0 ≤ k ∧ k ≤ 2 := fun k hk => hin k (List.mem_cons_of_mem _ hk)
    rw [pickInd, TArrayGet_rgba v j hj.1 (by omega)] at h
    simp only [bind, Except.bind] at h
    by_cases hc : channel v j = 1
    · rw [if_pos hc] at h
      exact ⟨List.mem_cons_of_mem _ (ih hrest h).1, (ih hrest h).2⟩
    · rw [if_neg hc] at h
      simp only [pure, Except.pure, Except.ok.injEq] at h
      subst h
      exact ⟨List.mem_cons_self _ _, hc⟩

theorem pickInd_append (v : FLinearColor) (pre post : List Int) (i : Int)
    (hpre : ∀ j ∈ pre, 0 ≤ j ∧ j ≤ 2 ∧ channel v j = 1)
    (hi0 : 0 ≤ i) (hi2 : i ≤ 2) (hi : channel v i ≠ 1) :
    pickInd [v.R, v.G, v.B, v.A] (pre ++ i :: post) = .ok i := by
  induction pre with
  | nil =>
    rw [List.nil_append, pickInd, TArrayGet_rgba v i hi0 (by omega)]
    simp only [bind, Except.bind, if_neg hi, pure, Except.pure]
  | cons j rest ih =>
    have hj := hpre j (List.mem_cons_self _ _)
    rw [List.cons_append, pickInd, TArrayGet_rgba v j hj.1 (by omega)]
    simp only [bind, Except.bind, if_pos hj.2.2]
    exact ih (fun k hk => hpre k (List.mem_cons_of_mem _ hk))

theorem pickInd_all_one (v : FLinearColor) (inds : List Int)
    (hin : ∀ j ∈ inds, 0 ≤ j ∧ j ≤ 2)
    (hR : v.R = 1) (hG : v.G = 1) (hB : v.B = 1) :
    pickInd [v.R, v.G, v.B, v.A] inds = .error .drawsExhausted := by
  cases h : pickInd [v.R, v.G, v.B, v.A] inds with
  | ok i =>
    have := pickInd_ok v inds i hin h
    have hi := hin i this.1
    have h3 : i = 0 ∨ i = 1 ∨ i = 2 := by omega
    exfalso
    rcases h3 with h3 | h3 | h3 <;> subst h3 <;> simp [channel, hR, hG, hB] at this
  | error e =>
    induction inds with
    | nil => simpa [pickInd] using h.symm
    | cons j rest ih =>
      have hj := hin j (List.mem_cons_self _ _)
      have hc : channel v j = 1 := by
        have h3 : j = 0 ∨ j = 1 ∨ j = 2 := by omega
        rcases h3 with h3 | h3 | h3 <;> subst h3 <;> simp [channel, hR, hG, hB]
      rw [pickInd, TArrayGet_rgba v j hj.1 (by omega)] at h
      simp only [bind, Except.bind, if_pos hc] at h
      exact ih (fun k hk => hin k (List.mem_cons_of_mem _ hk)) h

theorem bumpPhase_eq (c : Character) (v : FLinearColor) (s delta : ℚ) (i : Int)
    (h0 : 0 ≤ i) (h2 : i ≤ 2) :
    bumpPhase c [v.R, v.G, v.B, v.A] s delta i =
      match c.MaterialInstanceDynamic with
      | some mid =>
        .ok ({ c with VectorParam := stepVector v i delta,
                      ScalarParam := min 1 (s + delta), bDefault := false },
          [EngineCall.SetVectorParameterValue mid "VectorParam" (stepVector v i delta),
           EngineCall.SetScalarParameterValue mid "ScalarParam" (min 1 (s + delta))])
      | none => .error .nullDeref := by
  have h3 : i = 0 ∨ i = 1 ∨ i = 2 := by omega
  cases hm : c.MaterialInstanceDynamic <;>
  rcases h3 with h3 | h3 | h3 <;> subst h3 <;>
  simp [bumpPhase, TArrayGet, TArraySet, stepVector, clampTo1_eq_min, deref, hm,
    bind, Except.bind, pure, Except.pure]

theorem resetPhase_ok (t : Int) (c : Character) (rgba : List ℚ) (s : ℚ)
    (calls : List EngineCall) (h : resetPhase t c = .ok (rgba, s, calls)) :
    rgba = [(baseVector c).R, (baseVector c).G, (baseVector c).B, (baseVector c).A] ∧
    s = baseScalar c ∧
    ((Resets c ∧ ∃ tex mid, TArrayGet c.Textures t = .ok tex ∧
        c.MaterialInstanceDynamic = some mid ∧
        calls = [EngineCall.SetTextureParameterValue mid "TextureParam" tex]) ∨
     (¬ Resets c ∧ calls = [])) := by
  unfold resetPhase at h
  by_cases hr : Resets c
  · have hb := (resetCond_iff c).mpr hr
    simp only [hb, if_true] at h
    cases ht : TArrayGet c.Textures t with
    | error e => simp [ht, bind, Except.bind] at h
    | ok tex =>
      cases hm : c.MaterialInstanceDynamic with
      | none => simp [ht, hm, deref, bind, Except.bind] at h
      | some mid =>
        simp only [ht, hm, deref, bind, Except.bind, pure, Except.pure, Except.ok.injEq,
          Prod.mk.injEq] at h
        obtain ⟨h1, h2, h3⟩ := h
        refine ⟨?_, ?_, Or.inl ⟨hr, tex, mid, rfl, rfl, h3.symm⟩⟩
        · simp [baseVector, hr, ← h1]
        · simp [baseScalar, hr, ← h2]
  · have hb : ¬ ((bIsAll1 c || c.bDefault) = true) := fun hb => hr ((resetCond_iff c).mp hb)
    rw [if_neg hb] at h
    simp only [pure, Except.pure, Except.ok.injEq, Prod.mk.injEq] at h
    obtain ⟨h1, h2, h3⟩ := h
    refine ⟨?_, ?_, Or.inr ⟨hr, h3.symm⟩⟩
    · simp [baseVector, hr, ← h1]
    · simp [baseScalar, hr, ← h2]

/-- What a returning call of `ChangeMaterialParams` has done. -/
theorem ChangeMaterialParams_ok (d : Draws) (c c2 : Character) (calls : List EngineCall)
    (hin : ∀ i ∈ d.inds, 0 ≤ i ∧ i ≤ 2)
    (h : ChangeMaterialParams d c = .ok (c2, calls)) :
    ∃ (i : Int) (mid : UMaterialInstanceDynamic) (first : List EngineCall),
      0 ≤ i ∧ i ≤ 2 ∧ i ∈ d.inds ∧ channel (baseVector c) i ≠ 1 ∧
      c.MaterialInstanceDynamic = some mid ∧
      c2 = { c with VectorParam := stepVector (baseVector c) i d.delta,
                    ScalarParam := min 1 (baseScalar c + d.delta), bDefault := false } ∧
      calls = first ++
        [EngineCall.SetVectorParameterValue mid "VectorParam"
            (stepVector (baseVector c) i d.delta),
         EngineCall.SetScalarParameterValue mid "ScalarParam"
            (min 1 (baseScalar c + d.delta))] ∧
      ((Resets c ∧ ∃ tex, TArrayGet c.Textures d.texture = .ok tex ∧
          first = [EngineCall.SetTextureParameterValue mid "TextureParam" tex]) ∨
       (¬ Resets c ∧ first = [])) := by
  unfold ChangeMaterialParams at h
  cases hrp : resetPhase d.texture c with
  | error e => simp [hrp, bind, Except.bind] at h
  | ok r =>
    obtain ⟨rgba, s, calls1⟩ := r
    obtain ⟨h1, h2, h3⟩ := resetPhase_ok _ _ _ _ _ hrp
    subst h1 h2
    cases hp : pickInd [(baseVector c).R, (baseVector c).G, (baseVector c).B,
        (baseVector c).A] d.inds with
    | error e => simp [hrp, hp, bind, Except.bind] at h
    | ok i =>
      obtain ⟨hmem, hch⟩ := pickInd_ok _ _ _ hin hp
      obtain ⟨hi0, hi2⟩ := hin i hmem
      have hb := bumpPhase_eq c (baseVector c) (baseScalar c) d.delta i hi0 hi2
      cases hm : c.MaterialInstanceDynamic with
      | none =>
        rw [hm] at hb
        simp [hrp, hp, hb, bind, Except.bind] at h
      | some mid =>
        rw [hm] at hb
        simp only [hrp, hp, hb, bind, Except.bind, pure, Except.pure, Except.ok.injEq,
          Prod.mk.injEq] at h
        obtain ⟨hc, hcalls⟩ := h
        refine ⟨i, mid, calls1, hi0, hi2, hmem, hch, rfl, hc.symm, hcalls.symm, ?_⟩
        rcases h3 with ⟨hr, tex, mid2, ht, hm2, hc1⟩ | ⟨hr, hc1⟩
        · rw [hm] at hm2
          cases hm2
          exact Or.inl ⟨hr, tex, ht, hc1⟩
        · exact Or.inr ⟨hr, hc1⟩

/-- Every call of `ChangeMaterialParams` returns when the material instance
exists, the texture lookup of a resetting call is in range, and some draw is
accepted. -/
theorem ChangeMaterialParams_returns (d : Draws) (c : Character)
    (mid : UMaterialInstanceDynamic) (before after : List Int) (i : Int)
    (hm : c.MaterialInstanceDynamic = some mid)
    (ht : Resets c → ∃ tex, TArrayGet c.Textures d.texture = .ok tex)
    (hd : d.inds = before ++ i :: after)
    (hbefore : ∀ j ∈ before, 0 ≤ j ∧ j ≤ 2 ∧ channel (baseVector c) j = 1)
    (hi0 : 0 ≤ i) (hi2 : i ≤ 2) (hi : channel (baseVector c) i ≠ 1) :
    ∃ first, ChangeMaterialParams d c =
      .ok ({ c with VectorParam := stepVector (baseVector c) i d.delta,
                    ScalarParam := min 1 (baseScalar c + d.delta), bDefault := false },
        first ++
          [EngineCall.SetVectorParameterValue mid "VectorParam"
              (stepVector (baseVector c) i d.delta),
           EngineCall.SetScalarParameterValue mid "ScalarParam"
              (min 1 (baseScalar c + d.delta))]) ∧
      ((Resets c ∧ ∃ tex, TArrayGet c.Textures d.texture = .ok tex ∧
          first = [EngineCall.SetTextureParameterValue mid "TextureParam" tex]) ∨
       (¬ Resets c ∧ first = [])) := by
  have hp := pickInd_append (baseVector c) before after i hbefore hi0 hi2 hi
  rw [← hd] at hp
  have hb := bumpPhase_eq c (baseVector c) (baseScalar c) d.delta i hi0 hi2
  rw [hm] at hb
  by_cases hr : Resets c
  · obtain ⟨tex, htex⟩ := ht hr
    have hcond := (resetCond_iff c).mpr hr
    have hrp : resetPhase d.texture c =
        .ok ([(baseVector c).R, (baseVector c).G, (baseVector c).B, (baseVector c).A],
          baseScalar c, [EngineCall.SetTextureParameterValue mid "TextureParam" tex]) := by
      unfold resetPhase
      simp [hcond, htex, hm, deref, bind, Except.bind, pure, Except.pure, baseVector,
        baseScalar, hr]
    refine ⟨_, ?_, Or.inl ⟨hr, tex, htex, rfl⟩⟩
    unfold ChangeMaterialParams
    simp only [hrp, hp, hb, bind, Except.bind, pure, Except.pure]
    simp [hm]
  · have hcond : ¬ ((bIsAll1 c || c.bDefault) = true) :=
      fun hb => hr ((resetCond_iff c).mp hb)
    have hrp : resetPhase d.texture c =
        .ok ([(baseVector c).R, (baseVector c).G, (baseVector c).B, (baseVector c).A],
          baseScalar c, []) := by
      unfold resetPhase
      simp [hcond, pure, Except.pure, baseVector, baseScalar, hr]
    refine ⟨_, ?_, Or.inr ⟨hr, rfl⟩⟩
    unfold ChangeMaterialParams
    simp only [hrp, hp, hb, bind, Except.bind, pure, Except.pure]
    simp [hm]

theorem Good_zero : Good ⟨0, 0, 0, 0⟩ 0 := by
  constructor <;> norm_num

theorem Good_step (v : FLinearColor) (s delta : ℚ) (i : Int) (h : Good v s)
    (hi0 : 0 ≤ i) (hi2 : i ≤ 2) (hd : 0 ≤ delta) :
    Good (stepVector v i delta) (min 1 (s + delta)) := by
  obtain ⟨R0, R1, G0, G1, B0, B1, A0, A1, lockstep, budget⟩ := h
  subst lockstep
  have hA : min 1 (v.A + delta) < 1 → v.R + v.G + v.B ≤ v.A ∧ v.A + delta < 1 := by
    intro hlt
    rcases min_lt_iff.mp hlt with h1 | h1
    · exact absurd h1 (lt_irrefl _)
    · exact ⟨budget (by linarith), h1⟩
  have n0 : ∀ x : ℚ, 0 ≤ x → 0 ≤ min 1 (x + delta) :=
    fun x hx => le_min zero_le_one (add_nonneg hx hd)
  have n1 : ∀ x : ℚ, min 1 (x + delta) ≤ 1 := fun x => min_le_left _ _
  have nb : ∀ x : ℚ, min 1 (x + delta) ≤ x + delta := fun x => min_le_right _ _
  have h3 : i = 0 ∨ i = 1 ∨ i = 2 := by omega
  rcases h3 with h3 | h3 | h3 <;> subst h3 <;>
  constructor <;> simp only [stepVector, Int.reduceEq, ↓reduceIte] <;>
  first
    | assumption
    | exact n0 _ ‹_›
    | exact n1 _
    | (intro hlt
       obtain ⟨hb, hs⟩ := hA hlt
       rw [min_eq_right hs.le]
       have hR := nb v.R
       have hG := nb v.G
       have hB := nb v.B
       linarith)

theorem Good_base (c : Character) (h : c.bDefault = true ∨ Inv c) :
    Good (baseVector c) (baseScalar c) := by
  by_cases hr : Resets c
  · simp only [baseVector, baseScalar, hr, if_true]
    exact Good_zero
  · simp only [baseVector, baseScalar, hr, if_false]
    rcases h with h | h
    · exact absurd (Or.inl h) hr
    · exact h.2

/-- A returning call of `ChangeMaterialParams` from a state that has `bDefault`
set or satisfies the invariant ends in a state that satisfies the invariant. -/
theorem Inv_ChangeMaterialParams (d : Draws) (c c2 : Character) (calls : List EngineCall)
    (hd : d.InRange) (hc : c.bDefault = true ∨ Inv c)
    (h : ChangeMaterialParams d c = .ok (c2, calls)) : Inv c2 := by
  obtain ⟨i, mid, first, hi0, hi2, -, -, -, hc2, -, -⟩ :=
    ChangeMaterialParams_ok d c c2 calls hd.2.2 h
  subst hc2
  exact ⟨rfl, Good_step _ _ _ _ (Good_base c hc) hi0 hi2 hd.1⟩

/-- What a returning `BeginPlay` has done: the cube is looked up, the material
instance is created, and `ChangeMaterialParams` runs with `bDefault` set. -/
theorem BeginPlay_ok (w : UWorld) (Create : Option UMaterial → Option UMaterialInstanceDynamic)
    (d : Draws) (c0 c : Character) (calls : List EngineCall)
    (h : BeginPlay w Create d c0 = .ok (c, calls)) :
    ∃ (c1 : Character) (calls1 calls2 : List EngineCall),
      GetDynamicMaterialInstance Create
        { c0 with Cube := (GetAllActorsWithTag w "Cube").head?.or c0.Cube } = .ok (c1, calls1) ∧
      ChangeMaterialParams d { c1 with bDefault := true } = .ok (c, calls2) ∧
      calls = calls1 ++ calls2 := by
  unfold BeginPlay at h
  cases hl : GetAllActorsWithTag w "Cube" with
  | nil =>
    simp only [hl, List.length_nil, ne_eq, not_true_eq_false, if_false, bind, Except.bind,
      pure, Except.pure] at h
    cases hg : GetDynamicMaterialInstance Create c0 with
    | error e => simp [hg] at h
    | ok r =>
      obtain ⟨c1, calls1⟩ := r
      simp only [hg] at h
      cases hcm : ChangeMaterialParams d { c1 with bDefault := true } with
      | error e => simp [hcm] at h
      | ok r2 =>
        obtain ⟨c3, calls2⟩ := r2
        simp only [hcm, Except.ok.injEq, Prod.mk.injEq] at h
        refine ⟨c1, calls1, calls2, ?_, ?_, h.2.symm⟩
        · simpa [Option.or] using hg
        · rw [hcm, h.1]
  | cons a rest =>
    simp only [hl, List.length_cons, ne_eq, Nat.succ_ne_zero, not_false_eq_true, if_true,
      TArrayGet, bind, Except.bind, pure, Except.pure] at h
    simp at h
    cases hg : GetDynamicMaterialInstance Create { c0 with Cube := some a } with
    | error e => simp [hg] at h
    | ok r =>
      obtain ⟨c1, calls1⟩ := r
      simp only [hg] at h
      cases hcm : ChangeMaterialParams d { c1 with bDefault := true } with
      | error e => simp [hcm] at h
      | ok r2 =>
        obtain ⟨c3, calls2⟩ := r2
        simp only [hcm, Except.ok.injEq, Prod.mk.injEq] at h
        refine ⟨c1, calls1, calls2, ?_, ?_, h.2.symm⟩
        · simpa [Option.or] using hg
        · rw [hcm, h.1]

/-- Every reachable state satisfies the invariant. -/
theorem Reachable_Inv (c : Character) (h : Reachable c) : Inv c := by
  induction h with
  | beginPlay w Create d c0 c calls hd hb =>
    obtain ⟨c1, calls1, calls2, -, hcm, -⟩ := BeginPlay_ok w Create d c0 c calls hb
    exact Inv_ChangeMaterialParams d _ c calls2 hd (Or.inl rfl) hcm
  | step d c c2 calls _ hd hcm ih =>
    exact Inv_ChangeMaterialParams d c c2 calls hd (Or.inr ih) hcm

theorem TArrayGet_mem {α : Type} (xs : List α) (i : Int) (x : α)
    (h : TArrayGet xs i = .ok x) : x ∈ xs := by
  unfold TArrayGet at h
  by_cases h0 : 0 ≤ i
  · rw [if_pos h0] at h
    cases hx : xs[i.toNat]? with
    | none => simp [hx] at h
    | some y =>
      simp only [hx, Except.ok.injEq] at h
      subst h
      exact List.getElem?_mem hx
  · rw [if_neg h0] at h
    cases h

theorem TArrayGet_nil {α : Type} (i : Int) :
    TArrayGet ([] : List α) i = .error .indexOutOfRange := by
  unfold TArrayGet
  split <;> simp

theorem TArrayGet_inRange {α : Type} (xs : List α) (i : Int) (h0 : 0 ≤ i)
    (h1 : i ≤ (xs.length : Int) - 1) : ∃ x, x ∈ xs ∧ TArrayGet xs i = .ok x := by
  have hlt : i.toNat < xs.length := by omega
  refine ⟨xs[i.toNat], List.getElem_mem _, ?_⟩
  unfold TArrayGet
  rw [if_pos h0, List.getElem?_eq_getElem hlt]

theorem pickInd_of_mem (v : FLinearColor) (inds : List Int)
    (hin : ∀ j ∈ inds, 0 ≤ j ∧ j ≤ 2)
    (hex : ∃ j ∈ inds, channel v j ≠ 1) :
    ∃ i, pickInd [v.R, v.G, v.B, v.A] inds = .ok i := by
  induction inds with
  | nil =>
    obtain ⟨j, hj, -⟩ := hex
    cases hj
  | cons k rest ih =>
    have hk := hin k (List.mem_cons_self _ _)
    rw [pickInd, TArrayGet_rgba v k hk.1 (by omega)]
    simp only [bind, Except.bind]
    by_cases hc : channel v k = 1
    · rw [if_pos hc]
      apply ih (fun j hj => hin j (List.mem_cons_of_mem _ hj))
      obtain ⟨j, hj, hne⟩ := hex
      rcases List.mem_cons.mp hj with rfl | hj2
      · exact absurd hc hne
      · exact ⟨j, hj2, hne⟩
    · rw [if_neg hc]
      exact ⟨k, rfl⟩

/-- In a state that satisfies the invariant some channel among R, G, B of the
colour the step starts from is not 1. -/
theorem Inv_base_open (c : Character) (h : Inv c) :
    ∃ i : Int, 0 ≤ i ∧ i ≤ 2 ∧ channel (baseVector c) i ≠ 1 := by
  by_cases hr : Resets c
  · refine ⟨0, le_refl _, by norm_num, ?_⟩
    simp [baseVector, hr, channel]
  · simp only [baseVector, hr, if_false]
    obtain ⟨hb, hg⟩ := h
    by_cases hR : c.VectorParam.R = 1
    · by_cases hG : c.VectorParam.G = 1
      · by_cases hB : c.VectorParam.B = 1
        · exfalso
          have hA : c.VectorParam.A = 1 := by
            by_contra hA
            have hlt : c.VectorParam.A < 1 := lt_of_le_of_ne hg.A1 hA
            have := hg.budget hlt
            rw [hR, hG, hB] at this
            linarith
          exact hr (Or.inr ⟨hR, hG, hB, hA, by rw [← hg.lockstep, hA]⟩)
        · exact ⟨2, by norm_num, le_refl _, by simpa [channel] using hB⟩
      · exact ⟨1, by norm_num, by norm_num, by simpa [channel] using hG⟩
    · exact ⟨0, le_refl _, by norm_num, by simpa [channel] using hR⟩

theorem stepVector_mono (v : FLinearColor) (i : Int) (delta : ℚ) (hd : 0 ≤ delta)
    (hR : v.R ≤ 1) (hG : v.G ≤ 1) (hB : v.B ≤ 1) (hA : v.A ≤ 1) :
    v.R ≤ (stepVector v i delta).R ∧ v.G ≤ (stepVector v i delta).G ∧
    v.B ≤ (stepVector v i delta).B ∧ v.A ≤ (stepVector v i delta).A := by
  have key : ∀ x : ℚ, x ≤ 1 → x ≤ min 1 (x + delta) :=
    fun x hx => le_min hx (by linarith)
  refine ⟨?_, ?_, ?_, key _ hA⟩ <;> simp only [stepVector] <;> split
  · exact key _ hR
  · exact le_refl _
  · exact key _ hG
  · exact le_refl _
  · exact key _ hB
  · exact le_refl _

/-- A returning `GetDynamicMaterialInstance` found a cube and changed nothing
but `MaterialInstanceDynamic`. -/
theorem GetDynamicMaterialInstance_ok
    (Create : Option UMaterial → Option UMaterialInstanceDynamic) (c c1 : Character)
    (calls1 : List EngineCall) (h : GetDynamicMaterialInstance Create c = .ok (c1, calls1)) :
    ∃ cube, c.Cube = some cube ∧
      c1 = { c with MaterialInstanceDynamic := c1.MaterialInstanceDynamic } := by
  unfold GetDynamicMaterialInstance at h
  cases hcube : c.Cube with
  | none => simp [hcube, deref, bind, Except.bind] at h
  | some cube =>
    refine ⟨cube, rfl, ?_⟩
    cases hmesh : cube.StaticMesh with
    | none =>
      simp only [hcube, hmesh, deref, bind, Except.bind, pure, Except.pure, Except.ok.injEq,
        Prod.mk.injEq] at h
      rw [← h.1]
    | some mesh =>
      cases hmat : mesh.Material0 with
      | none => simp [hcube, hmesh, hmat, deref, bind, Except.bind] at h
      | some mi =>
        simp only [hcube, hmesh, hmat, deref, bind, Except.bind, pure, Except.pure,
          Except.ok.injEq, Prod.mk.injEq] at h
        rw [← h.1]

theorem GetDynamicMaterialInstance_Textures
    (Create : Option UMaterial → Option UMaterialInstanceDynamic) (c c1 : Character)
    (calls1 : List EngineCall) (h : GetDynamicMaterialInstance Create c = .ok (c1, calls1)) :
    c1.Textures = c.Textures := by
  obtain ⟨-, -, h1⟩ := GetDynamicMaterialInstance_ok Create c c1 calls1 h
  rw [h1]

/-! ## Evaluation of the concrete scenes -/

theorem exDraws_inRange : exDraws.InRange := by
  refine ⟨?_, ?_, ?_⟩
  · norm_num [exDraws]
  · norm_num [exDraws]
  · intro i hi
    simp only [exDraws, List.mem_singleton] at hi
    subst hi
    norm_num

theorem exBeginPlay : BeginPlay exWorld exCreate exDraws exInit = .ok (exSpawned, exSpawnCalls) := by
  simp [BeginPlay, GetAllActorsWithTag, exWorld, exCreate, exDraws, exInit, exSpawned,
    exSpawnCalls, GetDynamicMaterialInstance, ChangeMaterialParams, resetPhase, bumpPhase,
    pickInd, TArrayGet, TArraySet, deref, clampTo1, bIsAll1, scanAll1, bind, Except.bind,
    pure, Except.pure]
  norm_num

theorem exReachable : Reachable exSpawned :=
  Reachable.beginPlay exWorld exCreate exDraws exInit exSpawned exSpawnCalls
    exDraws_inRange exBeginPlay

theorem exSecondCall :
    ChangeMaterialParams exDraws exSpawned = .ok (exSecond, exSecondCalls) := by
  simp [exDraws, exSpawned, exSecond, exSecondCalls, ChangeMaterialParams, resetPhase,
    bumpPhase, pickInd, TArrayGet, TArraySet, deref, clampTo1, bIsAll1, scanAll1, bind,
    Except.bind, pure, Except.pure]
  norm_num

theorem exAt_step (r g b a r2 g2 b2 a2 : ℚ) (i : Int) (hi0 : 0 ≤ i) (hi2 : i ≤ 2)
    (hreach : Reachable (exAt r g b a)) (hnot : ¬ AllOnes (exAt r g b a))
    (hch : channel ⟨r, g, b, a⟩ i ≠ 1)
    (hv : stepVector ⟨r, g, b, a⟩ i (1 / 5) = ⟨r2, g2, b2, a2⟩) :
    Reachable (exAt r2 g2 b2 a2) := by
  have hnr : ¬ Resets (exAt r g b a) := by
    rintro (h | h)
    · cases h
    · exact hnot h
  have hbv : baseVector (exAt r g b a) = ⟨r, g, b, a⟩ := by
    simp only [baseVector, if_neg hnr]
    rfl
  have hbs : baseScalar (exAt r g b a) = a := by
    simp only [baseScalar, if_neg hnr]
    rfl
  obtain ⟨first, hcall, -⟩ :=
    ChangeMaterialParams_returns ⟨0, 1 / 5, [i]⟩ (exAt r g b a) ⟨9⟩ [] [] i rfl
      (fun hr => absurd hr hnr) rfl (fun j hj => absurd hj (List.not_mem_nil j)) hi0 hi2
      (by rw [hbv]; exact hch)
  have hin : (Draws.mk 0 (1 / 5) [i]).InRange := by
    refine ⟨by norm_num, le_refl _, ?_⟩
    intro j hj
    simp only [List.mem_singleton] at hj
    subst hj
    exact ⟨hi0, hi2⟩
  have hstep := Reachable.step _ _ _ _ hreach hin hcall
  have ha2 : a2 = min 1 (a + 1 / 5) := by
    have := congrArg FLinearColor.A hv
    simpa [stepVector] using this.symm
  have heq : exAt r2 g2 b2 a2 =
      { exAt r g b a with
        VectorParam := stepVector (baseVector (exAt r g b a)) i (1 / 5),
        ScalarParam := min 1 (baseScalar (exAt r g b a) + 1 / 5),
        bDefault := false } := by
    rw [hbv, hbs, hv, ← ha2]
    rfl
  rw [heq]
  exact hstep

theorem exAllOnes_reachable : Reachable (exAt 1 1 1 1) := by
  have s1 : Reachable (exAt 0 (1 / 5) 0 (1 / 5)) := exReachable
  have s2 : Reachable (exAt 0 (2 / 5) 0 (2 / 5)) :=
    exAt_step _ _ _ _ _ _ _ _ 1 (by norm_num) (by norm_num) s1
      (by norm_num [AllOnes, exAt]) (by norm_num [channel])
      (by norm_num [stepVector])
  have s3 : Reachable (exAt 0 (3 / 5) 0 (3 / 5)) :=
    exAt_step _ _ _ _ _ _ _ _ 1 (by norm_num) (by norm_num) s2
      (by norm_num [AllOnes, exAt]) (by norm_num [channel])
      (by norm_num [stepVector])
  have s4 : Reachable (exAt 0 (4 / 5) 0 (4 / 5)) :=
    exAt_step _ _ _ _ _ _ _ _ 1 (by norm_num) (by norm_num) s3
      (by norm_num [AllOnes, exAt]) (by norm_num [channel])
      (by norm_num [stepVector])
  have s5 : Reachable (exAt 0 1 0 1) :=
    exAt_step _ _ _ _ _ _ _ _ 1 (by norm_num) (by norm_num) s4
      (by norm_num [AllOnes, exAt]) (by norm_num [channel])
      (by norm_num [stepVector])
  have s6 : Reachable (exAt (1 / 5) 1 0 1) :=
    exAt_step _ _ _ _ _ _ _ _ 0 (by norm_num) (by norm_num) s5
      (by norm_num [AllOnes, exAt]) (by norm_num [channel])
      (by norm_num [stepVector])
  have s7 : Reachable (exAt (2 / 5) 1 0 1) :=
    exAt_step _ _ _ _ _ _ _ _ 0 (by norm_num) (by norm_num) s6
      (by norm_num [AllOnes, exAt]) (by norm_num [channel])
      (by norm_num [stepVector])
  have s8 : Reachable (exAt (3 / 5) 1 0 1) :=
    exAt_step _ _ _ _ _ _ _ _ 0 (by norm_num) (by norm_num) s7
      (by norm_num [AllOnes, exAt]) (by norm_num [channel])
      (by norm_num [stepVector])
  have s9 : Reachable (exAt (4 / 5) 1 0 1) :=
    exAt_step _ _ _ _ _ _ _ _ 0 (by norm_num) (by norm_num) s8
      (by norm_num [AllOnes, exAt]) (by norm_num [channel])
      (by norm_num [stepVector])
  have s10 : Reachable (exAt 1 1 0 1) :=
    exAt_step _ _ _ _ _ _ _ _ 0 (by norm_num) (by norm_num) s9
      (by norm_num [AllOnes, exAt]) (by norm_num [channel])
      (by norm_num [stepVector])
  have s11 : Reachable (exAt 1 1 (1 / 5) 1) :=
    exAt_step _ _ _ _ _ _ _ _ 2 (by norm_num) (by norm_num) s10
      (by norm_num [AllOnes, exAt]) (by norm_num [channel])
      (by norm_num [stepVector])
  have s12 : Reachable (exAt 1 1 (2 / 5) 1) :=
    exAt_step _ _ _ _ _ _ _ _ 2 (by norm_num) (by norm_num) s11
      (by norm_num [AllOnes, exAt]) (by norm_num [channel])
      (by norm_num [stepVector])
  have s13 : Reachable (exAt 1 1 (3 / 5) 1) :=
    exAt_step _ _ _ _ _ _ _ _ 2 (by norm_num) (by norm_num) s12
      (by norm_num [AllOnes, exAt]) (by norm_num [channel])
      (by norm_num [stepVector])
  have s14 : Reachable (exAt 1 1 (4 / 5) 1) :=
    exAt_step _ _ _ _ _ _ _ _ 2 (by norm_num) (by norm_num) s13
      (by norm_num [AllOnes, exAt]) (by norm_num [channel])
      (by norm_num [stepVector])
  exact exAt_step _ _ _ _ _ _ _ _ 2 (by norm_num) (by norm_num) s14
    (by norm_num [AllOnes, exAt]) (by norm_num [channel])
    (by norm_num [stepVector])

theorem exResetCall :
    ChangeMaterialParams exDraws (exAt 1 1 1 1) =
      .ok (exSpawned, [EngineCall.SetTextureParameterValue ⟨9⟩ "TextureParam" ⟨7⟩,
        EngineCall.SetVectorParameterValue ⟨9⟩ "VectorParam" ⟨0, 1 / 5, 0, 1 / 5⟩,
        EngineCall.SetScalarParameterValue ⟨9⟩ "ScalarParam" (1 / 5)]) := by
  simp [exDraws, exAt, exSpawned, ChangeMaterialParams, resetPhase,
    bumpPhase, pickInd, TArrayGet, TArraySet, deref, clampTo1, bIsAll1, scanAll1, bind,
    Except.bind, pure, Except.pure]
  norm_num

/-! ## The claims -/

/-- C1: in every state reachable from `BeginPlay` by any sequence of
`ChangeMaterialParams` calls, with every delta in `[0, 0.2]` and every index
drawn in `{0, 1, 2}`, each of the channels R, G, B, A of `VectorParam` and the
value `ScalarParam` is at least 0 and at most 1. -/
theorem C1_params_stay_in_unit_interval (c : Character) (h : Reachable c) :
    (0 ≤ c.VectorParam.R ∧ c.VectorParam.R ≤ 1) ∧
    (0 ≤ c.VectorParam.G ∧ c.VectorParam.G ≤ 1) ∧
    (0 ≤ c.VectorParam.B ∧ c.VectorParam.B ≤ 1) ∧
    (0 ≤ c.VectorParam.A ∧ c.VectorParam.A ≤ 1) ∧
    (0 ≤ c.ScalarParam ∧ c.ScalarParam ≤ 1) := by
  obtain ⟨-, hg⟩ := Reachable_Inv c h
  refine ⟨⟨hg.R0, hg.R1⟩, ⟨hg.G0, hg.G1⟩, ⟨hg.B0, hg.B1⟩, ⟨hg.A0, hg.A1⟩, ?_, ?_⟩
  · rw [← hg.lockstep]; exact hg.A0
  · rw [← hg.lockstep]; exact hg.A1

/-- Witness of C1 at the state after `BeginPlay` in the concrete scene. -/
theorem C1_params_stay_in_unit_interval_witness :
    Reachable exSpawned ∧
    ((0 ≤ exSpawned.VectorParam.R ∧ exSpawned.VectorParam.R ≤ 1) ∧
     (0 ≤ exSpawned.VectorParam.G ∧ exSpawned.VectorParam.G ≤ 1) ∧
     (0 ≤ exSpawned.VectorParam.B ∧ exSpawned.VectorParam.B ≤ 1) ∧
     (0 ≤ exSpawned.VectorParam.A ∧ exSpawned.VectorParam.A ≤ 1) ∧
     (0 ≤ exSpawned.ScalarParam ∧ exSpawned.ScalarParam ≤ 1)) :=
  ⟨exReachable, C1_params_stay_in_unit_interval exSpawned exReachable⟩

/-- C2: for every returning call of `ChangeMaterialParams` made from a state
reachable after `BeginPlay` has returned, `bDefault` is false at entry and the
condition of line 139 holds if and only if the four channels and `ScalarParam`
are all 1 at entry; in that case lines 124 to 144 leave the four channels and
the scalar at zero and set a texture taken from `Textures`; in every other
call they leave the entry values in place, no texture is set, and no channel
and not `ScalarParam` decreases. -/
theorem C2_reset_iff_all_ones (d : Draws) (c c2 : Character) (calls : List EngineCall)
    (hreach : Reachable c) (hd : d.InRange)
    (h : ChangeMaterialParams d c = .ok (c2, calls)) :
    c.bDefault = false ∧
    ((bIsAll1 c || c.bDefault) = true ↔ AllOnes c) ∧
    (AllOnes c → ∃ mid tex, tex ∈ c.Textures ∧
      resetPhase d.texture c =
        .ok ([0, 0, 0, 0], 0, [EngineCall.SetTextureParameterValue mid "TextureParam" tex]) ∧
      EngineCall.SetTextureParameterValue mid "TextureParam" tex ∈ calls) ∧
    (¬ AllOnes c →
      resetPhase d.texture c =
        .ok ([c.VectorParam.R, c.VectorParam.G, c.VectorParam.B, c.VectorParam.A],
          c.ScalarParam, []) ∧
      (∀ mid name tex, EngineCall.SetTextureParameterValue mid name tex ∉ calls) ∧
      c.VectorParam.R ≤ c2.VectorParam.R ∧ c.VectorParam.G ≤ c2.VectorParam.G ∧
      c.VectorParam.B ≤ c2.VectorParam.B ∧ c.VectorParam.A ≤ c2.VectorParam.A ∧
      c.ScalarParam ≤ c2.ScalarParam) := by
  obtain ⟨hb, hg⟩ := Reachable_Inv c hreach
  have hiff : Resets c ↔ AllOnes c := by
    constructor
    · rintro (h1 | h1)
      · rw [hb] at h1; cases h1
      · exact h1
    · exact fun h1 => Or.inr h1
  obtain ⟨i, mid, first, hi0, hi2, -, -, hm, hc2, hcalls, hfirst⟩ :=
    ChangeMaterialParams_ok d c c2 calls hd.2.2 h
  refine ⟨hb, (resetCond_iff c).trans hiff, ?_, ?_⟩
  · intro hall
    have hr : Resets c := hiff.mpr hall
    rcases hfirst with ⟨-, tex, ht, hf⟩ | ⟨hnr, -⟩
    · refine ⟨mid, tex, TArrayGet_mem _ _ _ ht, ?_, ?_⟩
      · unfold resetPhase
        simp [(resetCond_iff c).mpr hr, ht, hm, deref, bind, Except.bind, pure, Except.pure]
      · rw [hcalls, hf]
        simp
    · exact absurd hr hnr
  · intro hnall
    have hnr : ¬ Resets c := fun hr => hnall (hiff.mp hr)
    have hcond : ¬ ((bIsAll1 c || c.bDefault) = true) :=
      fun hx => hnr ((resetCond_iff c).mp hx)
    rcases hfirst with ⟨hr, -⟩ | ⟨-, hf⟩
    · exact absurd hr hnr
    · have hmono := stepVector_mono c.VectorParam i d.delta hd.1 hg.R1 hg.G1 hg.B1 hg.A1
      have hbv : baseVector c = c.VectorParam := by simp [baseVector, hnr]
      have hbs : baseScalar c = c.ScalarParam := by simp [baseScalar, hnr]
      rw [hbv, hbs] at hc2 hcalls
      subst hc2
      refine ⟨?_, ?_, hmono.1, hmono.2.1, hmono.2.2.1, hmono.2.2.2, ?_⟩
      · unfold resetPhase
        rw [if_neg hcond]
        rfl
      · intro mid2 name tex hmem
        rw [hcalls, hf] at hmem
        simp at hmem
      · have hs1 : c.ScalarParam ≤ 1 := by rw [← hg.lockstep]; exact hg.A1
        exact le_min hs1 (by linarith [hd.1])

/-- Witness of C2 in the concrete scene: the second call, which does not
reset and moves G up, and the call from the reachable all-ones state, which
resets and sets the texture. -/
theorem C2_reset_iff_all_ones_witness :
    (Reachable exSpawned ∧ exDraws.InRange ∧
      ChangeMaterialParams exDraws exSpawned = .ok (exSecond, exSecondCalls) ∧
      exSpawned.bDefault = false ∧
      ((bIsAll1 exSpawned || exSpawned.bDefault) = true ↔ AllOnes exSpawned) ∧
      exSpawned.VectorParam.G ≤ exSecond.VectorParam.G) ∧
    (Reachable (exAt 1 1 1 1) ∧ AllOnes (exAt 1 1 1 1) ∧
      ∃ mid tex, tex ∈ (exAt 1 1 1 1).Textures ∧
        resetPhase exDraws.texture (exAt 1 1 1 1) =
          .ok ([0, 0, 0, 0], 0,
            [EngineCall.SetTextureParameterValue mid "TextureParam" tex]) ∧
        EngineCall.SetTextureParameterValue mid "TextureParam" tex ∈
          [EngineCall.SetTextureParameterValue ⟨9⟩ "TextureParam" ⟨7⟩,
            EngineCall.SetVectorParameterValue ⟨9⟩ "VectorParam" ⟨0, 1 / 5, 0, 1 / 5⟩,
            EngineCall.SetScalarParameterValue ⟨9⟩ "ScalarParam" (1 / 5)]) :=
  ⟨⟨exReachable, exDraws_inRange, exSecondCall,
      (C2_reset_iff_all_ones exDraws exSpawned exSecond exSecondCalls exReachable
        exDraws_inRange exSecondCall).1,
      (C2_reset_iff_all_ones exDraws exSpawned exSecond exSecondCalls exReachable
        exDraws_inRange exSecondCall).2.1,
      ((C2_reset_iff_all_ones exDraws exSpawned exSecond exSecondCalls exReachable
        exDraws_inRange exSecondCall).2.2.2 (by norm_num [AllOnes, exSpawned])).2.2.2.1⟩,
    ⟨exAllOnes_reachable, ⟨rfl, rfl, rfl, rfl, rfl⟩,
      (C2_reset_iff_all_ones exDraws (exAt 1 1 1 1) exSpawned _ exAllOnes_reachable
        exDraws_inRange exResetCall).2.2.1 ⟨rfl, rfl, rfl, rfl, rfl⟩⟩⟩

/-- C9: in every state reachable from `BeginPlay` by any sequence of
`ChangeMaterialParams` calls, `VectorParam.A` equals `ScalarParam`, and
whenever A is less than 1 the sum R + G + B is at most A. -/
theorem C9_alpha_scalar_lockstep (c : Character) (h : Reachable c) :
    c.VectorParam.A = c.ScalarParam ∧
    (c.VectorParam.A < 1 →
      c.VectorParam.R + c.VectorParam.G + c.VectorParam.B ≤ c.VectorParam.A) := by
  obtain ⟨-, hg⟩ := Reachable_Inv c h
  exact ⟨hg.lockstep, hg.budget⟩

/-- Witness of C9 at the state after the second call in the concrete scene. -/
theorem C9_alpha_scalar_lockstep_witness :
    Reachable exSecond ∧ exSecond.VectorParam.A = exSecond.ScalarParam ∧
    (exSecond.VectorParam.A < 1 →
      exSecond.VectorParam.R + exSecond.VectorParam.G + exSecond.VectorParam.B ≤
        exSecond.VectorParam.A) :=
  ⟨Reachable.step exDraws exSpawned exSecond exSecondCalls exReachable exDraws_inRange
      exSecondCall,
    C9_alpha_scalar_lockstep exSecond
      (Reachable.step exDraws exSpawned exSecond exSecondCalls exReachable exDraws_inRange
        exSecondCall)⟩

/-- C8: in every state reachable from `BeginPlay` by any sequence of
`ChangeMaterialParams` calls, the array `rgba` with which the rejection loop is
entered has a channel among R, G, B that is not 1; the loop returns as soon as
such an index is among the draws; the index it returns lies in `{0, 1, 2}` and
its channel is not 1.  The precondition matters: from a state with
R = G = B = 1, `bDefault` false and A or `ScalarParam` not 1 every supply of
draws is rejected. -/
theorem C8_rejection_loop_exits (c : Character) (t : Int) (rgba : List ℚ) (s : ℚ)
    (calls1 : List EngineCall) (hreach : Reachable c)
    (hrp : resetPhase t c = .ok (rgba, s, calls1)) :
    (∃ (i : Int) (x : ℚ), 0 ≤ i ∧ i ≤ 2 ∧ TArrayGet rgba i = .ok x ∧ x ≠ 1) ∧
    (∀ inds : List Int, (∀ j ∈ inds, 0 ≤ j ∧ j ≤ 2) →
      (∃ j ∈ inds, ∃ x, TArrayGet rgba j = .ok x ∧ x ≠ 1) →
      ∃ i, pickInd rgba inds = .ok i) ∧
    (∀ (inds : List Int) (i : Int), (∀ j ∈ inds, 0 ≤ j ∧ j ≤ 2) →
      pickInd rgba inds = .ok i →
      0 ≤ i ∧ i ≤ 2 ∧ ∃ x, TArrayGet rgba i = .ok x ∧ x ≠ 1) ∧
    (∀ (c3 : Character) (d : Draws), (∀ j ∈ d.inds, 0 ≤ j ∧ j ≤ 2) →
      c3.VectorParam.R = 1 → c3.VectorParam.G = 1 → c3.VectorParam.B = 1 →
      c3.bDefault = false → (c3.VectorParam.A ≠ 1 ∨ c3.ScalarParam ≠ 1) →
      ChangeMaterialParams d c3 = .error .drawsExhausted) := by
  have hinv := Reachable_Inv c hreach
  obtain ⟨hrgba, -, -⟩ := resetPhase_ok t c rgba s calls1 hrp
  subst hrgba
  refine ⟨?_, ?_, ?_, ?_⟩
  · obtain ⟨i, hi0, hi2, hne⟩ := Inv_base_open c hinv
    exact ⟨i, _, hi0, hi2, TArrayGet_rgba _ i hi0 (by omega), hne⟩
  · intro inds hin hex
    apply pickInd_of_mem _ inds hin
    obtain ⟨j, hj, x, hx, hne⟩ := hex
    have hjr := hin j hj
    rw [TArrayGet_rgba _ j hjr.1 (by omega)] at hx
    cases hx
    exact ⟨j, hj, hne⟩
  · intro inds i hin hp
    obtain ⟨hmem, hne⟩ := pickInd_ok _ inds i hin hp
    have hir := hin i hmem
    exact ⟨hir.1, hir.2, _, TArrayGet_rgba _ i hir.1 (by omega), hne⟩
  · intro c3 d hin hR hG hB hb hne
    have hnall : ¬ AllOnes c3 := by
      rintro ⟨-, -, -, hA, hS⟩
      rcases hne with h | h
      · exact h hA
      · exact h hS
    have hcond : ¬ ((bIsAll1 c3 || c3.bDefault) = true) := by
      intro hx
      rcases (resetCond_iff c3).mp hx with h | h
      · rw [hb] at h; cases h
      · exact hnall h
    have hp := pickInd_all_one c3.VectorParam d.inds hin hR hG hB
    unfold ChangeMaterialParams resetPhase
    rw [if_neg hcond]
    simp only [bind, Except.bind, pure, Except.pure, hp]

/-- Witness of C8 at the state after `BeginPlay` in the concrete scene, and at
the state `exStuck` for the remark on the precondition. -/
theorem C8_rejection_loop_exits_witness :
    Reachable exSpawned ∧
    resetPhase 0 exSpawned = .ok ([0, 1 / 5, 0, 1 / 5], 1 / 5, []) ∧
    (∃ (i : Int) (x : ℚ), 0 ≤ i ∧ i ≤ 2 ∧
      TArrayGet [(0 : ℚ), 1 / 5, 0, 1 / 5] i = .ok x ∧ x ≠ 1) ∧
    ChangeMaterialParams ⟨0, 1 / 5, [0, 1, 2, 2, 1, 0]⟩ exStuck = .error .drawsExhausted :=
  have hrp : resetPhase 0 exSpawned = .ok ([0, 1 / 5, 0, 1 / 5], 1 / 5, []) := by
    simp [resetPhase, exSpawned, bIsAll1, scanAll1, pure, Except.pure]
  ⟨exReachable, hrp,
    (C8_rejection_loop_exits exSpawned 0 _ _ _ exReachable hrp).1,
    (C8_rejection_loop_exits exSpawned 0 _ _ _ exReachable hrp).2.2.2 exStuck
      ⟨0, 1 / 5, [0, 1, 2, 2, 1, 0]⟩ (by simp) rfl rfl rfl rfl
      (Or.inl (by norm_num [exStuck]))⟩

/-- C6: one call of `ChangeMaterialParams` takes one bounded step.  With the
base state all zero when the call resets (`bDefault` set or all ones at entry)
and the entry state otherwise, the drawn delta (any value, so every one in
`[0, 0.2]`) and the accepted index
`i` in `{0, 1, 2}` (the first draw whose base channel is not 1), the call
returns a state whose channel `i` is `min 1 (base i + delta)`, whose other
channels among R, G, B keep their base value, whose A is
`min 1 (base A + delta)`, whose `ScalarParam` is `min 1 (base scalar + delta)`
and whose `bDefault` is false; the vector and the scalar sent to the material
instance are those of the returned state, and no other field changes. -/
theorem C6_one_bounded_step (d : Draws) (c : Character) (mid : UMaterialInstanceDynamic)
    (before after : List Int) (i : Int)
    (hm : c.MaterialInstanceDynamic = some mid)
    (ht : Resets c → ∃ tex, TArrayGet c.Textures d.texture = .ok tex)
    (hd : d.inds = before ++ i :: after)
    (hbefore : ∀ j ∈ before, 0 ≤ j ∧ j ≤ 2 ∧ channel (baseVector c) j = 1)
    (hi0 : 0 ≤ i) (hi2 : i ≤ 2) (hi : channel (baseVector c) i ≠ 1) :
    ∃ (c2 : Character) (calls : List EngineCall),
      ChangeMaterialParams d c = .ok (c2, calls) ∧
      channel c2.VectorParam i = min 1 (channel (baseVector c) i + d.delta) ∧
      (∀ j : Int, 0 ≤ j → j ≤ 2 → j ≠ i →
        channel c2.VectorParam j = channel (baseVector c) j) ∧
      c2.VectorParam.A = min 1 ((baseVector c).A + d.delta) ∧
      c2.ScalarParam = min 1 (baseScalar c + d.delta) ∧
      c2.bDefault = false ∧
      EngineCall.SetVectorParameterValue mid "VectorParam" c2.VectorParam ∈ calls ∧
      EngineCall.SetScalarParameterValue mid "ScalarParam" c2.ScalarParam ∈ calls ∧
      c2 = { c with VectorParam := c2.VectorParam, ScalarParam := c2.ScalarParam,
                    bDefault := false } := by
  obtain ⟨first, hcall, -⟩ :=
    ChangeMaterialParams_returns d c mid before after i hm ht hd hbefore hi0 hi2 hi
  refine ⟨_, _, hcall, ?_, ?_, rfl, rfl, rfl, ?_, ?_, rfl⟩
  · have h3 : i = 0 ∨ i = 1 ∨ i = 2 := by omega
    rcases h3 with h3 | h3 | h3 <;> subst h3 <;> simp [channel, stepVector]
  · intro j hj0 hj2 hji
    have h3 : i = 0 ∨ i = 1 ∨ i = 2 := by omega
    have h4 : j = 0 ∨ j = 1 ∨ j = 2 := by omega
    rcases h3 with h3 | h3 | h3 <;> rcases h4 with h4 | h4 | h4 <;> subst h3 <;> subst h4 <;>
      first
        | exact absurd rfl hji
        | simp [channel, stepVector]
  · simp
  · simp

/-- Witness of C6 at the second call in the concrete scene: the draw 1 is
accepted at once and G moves from 1/5 to 2/5. -/
theorem C6_one_bounded_step_witness :
    exSpawned.MaterialInstanceDynamic = some ⟨9⟩ ∧
    exDraws.inds = [] ++ 1 :: [] ∧
    channel (baseVector exSpawned) 1 ≠ 1 ∧
    ∃ (c2 : Character) (calls : List EngineCall),
      ChangeMaterialParams exDraws exSpawned = .ok (c2, calls) ∧
      channel c2.VectorParam 1 = min 1 (channel (baseVector exSpawned) 1 + exDraws.delta) ∧
      (∀ j : Int, 0 ≤ j → j ≤ 2 → j ≠ 1 →
        channel c2.VectorParam j = channel (baseVector exSpawned) j) ∧
      c2.VectorParam.A = min 1 ((baseVector exSpawned).A + exDraws.delta) ∧
      c2.ScalarParam = min 1 (baseScalar exSpawned + exDraws.delta) ∧
      c2.bDefault = false ∧
      EngineCall.SetVectorParameterValue ⟨9⟩ "VectorParam" c2.VectorParam ∈ calls ∧
      EngineCall.SetScalarParameterValue ⟨9⟩ "ScalarParam" c2.ScalarParam ∈ calls ∧
      c2 = { exSpawned with VectorParam := c2.VectorParam, ScalarParam := c2.ScalarParam,
                            bDefault := false } :=
  have hnr : ¬ Resets exSpawned := by
    norm_num [Resets, AllOnes, exSpawned]
  have hch : channel (baseVector exSpawned) 1 ≠ 1 := by
    simp only [baseVector, if_neg hnr]
    norm_num [channel, exSpawned]
  ⟨rfl, rfl, hch,
    C6_one_bounded_step exDraws exSpawned ⟨9⟩ [] [] 1 rfl (fun hr => absurd hr hnr)
      rfl (fun j hj => absurd hj (List.not_mem_nil j))
      (by norm_num) (by norm_num) hch⟩

/-- C10: the texture lookup of a resetting call is in range exactly when
`Textures` is non-empty.  With at least one texture every draw in
`[0, Textures.Num() - 1]` is a valid position; with no texture the range is
`[0, -1]`, every index is out of range, every resetting call of
`ChangeMaterialParams` stops on the lookup, and so does the call that
`BeginPlay` makes, so that `BeginPlay` never returns. -/
theorem C10_texture_lookup (c : Character) :
    (c.Textures ≠ [] → ∀ t : Int, 0 ≤ t → t ≤ (c.Textures.length : Int) - 1 →
      ∃ tex, tex ∈ c.Textures ∧ TArrayGet c.Textures t = .ok tex) ∧
    (c.Textures = [] → (c.Textures.length : Int) - 1 = -1 ∧
      ∀ t : Int, TArrayGet c.Textures t = .error .indexOutOfRange) ∧
    (c.Textures = [] → (bIsAll1 c || c.bDefault) = true →
      ∀ d : Draws, ChangeMaterialParams d c = .error .indexOutOfRange) ∧
    (c.Textures = [] →
      ∀ d : Draws, ChangeMaterialParams d { c with bDefault := true } =
        .error .indexOutOfRange) ∧
    (c.Textures = [] →
      ∀ (w : UWorld) (Create : Option UMaterial → Option UMaterialInstanceDynamic)
        (d : Draws) (r : Character × List EngineCall), BeginPlay w Create d c ≠ .ok r) := by
  have hreset : ∀ c3 : Character, c3.Textures = [] → Resets c3 →
      ∀ d : Draws, ChangeMaterialParams d c3 = .error .indexOutOfRange := by
    intro c3 he hr d
    unfold ChangeMaterialParams resetPhase
    rw [if_pos ((resetCond_iff c3).mpr hr), he, TArrayGet_nil]
    rfl
  refine ⟨?_, ?_, fun he hc => hreset c he ((resetCond_iff c).mp hc), ?_, ?_⟩
  · intro _ t h0 h1
    exact TArrayGet_inRange c.Textures t h0 h1
  · intro he
    rw [he]
    exact ⟨by simp, fun t => TArrayGet_nil t⟩
  · intro he d
    exact hreset { c with bDefault := true } he (Or.inl rfl) d
  · intro he w Create d r hok
    obtain ⟨c1, calls1, calls2, hg, hcm, -⟩ := BeginPlay_ok w Create d c r.1 r.2 hok
    have hT : c1.Textures = [] := by
      rw [GetDynamicMaterialInstance_Textures _ _ _ _ hg]
      exact he
    have := hreset { c1 with bDefault := true } hT (Or.inl rfl) d
    rw [this] at hcm
    cases hcm

/-- Witness of C10: the concrete character has one texture and the draw 0 is
in range; without textures its `BeginPlay` does not return. -/
theorem C10_texture_lookup_witness :
    (∃ tex, tex ∈ exInit.Textures ∧ TArrayGet exInit.Textures 0 = .ok tex) ∧
    BeginPlay exWorld exCreate exDraws { exInit with Textures := [] } ≠
      .ok (exSpawned, exSpawnCalls) :=
  ⟨(C10_texture_lookup exInit).1 (by simp [exInit]) 0 (le_refl _) (by simp [exInit]),
    (C10_texture_lookup { exInit with Textures := [] }).2.2.2.2 rfl exWorld exCreate exDraws
      (exSpawned, exSpawnCalls)⟩

theorem bumpPhase_null (c : Character) (rgba : List ℚ) (s delta : ℚ) (i : Int)
    (hm : c.MaterialInstanceDynamic = none) (r : Character × List EngineCall) :
    bumpPhase c rgba s delta i ≠ .ok r := by
  intro h
  simp only [bumpPhase, bind, Except.bind, hm, deref] at h
  repeat' split at h
  all_goals cases h

theorem ChangeMaterialParams_null (d : Draws) (c : Character)
    (hm : c.MaterialInstanceDynamic = none) (r : Character × List EngineCall) :
    ChangeMaterialParams d c ≠ .ok r := by
  intro h
  unfold ChangeMaterialParams at h
  cases hrp : resetPhase d.texture c with
  | error e => simp [hrp, bind, Except.bind] at h
  | ok r1 =>
    obtain ⟨rgba, s, calls1⟩ := r1
    cases hp : pickInd rgba d.inds with
    | error e => simp [hrp, hp, bind, Except.bind] at h
    | ok i =>
      cases hb : bumpPhase c rgba s d.delta i with
      | error e => simp [hrp, hp, hb, bind, Except.bind] at h
      | ok r2 => exact bumpPhase_null c rgba s d.delta i hm r2 hb

/-- C3, the code at the inputs where it fails: with no actor tagged "Cube"
`Cube` stays null and `GetDynamicMaterialInstance`, hence `BeginPlay`, stops on
the dereference of `Cube`; with a cube whose mesh has no material in slot 0
`GetDynamicMaterialInstance` stops on the dereference of `GetMaterial(0)`;
with a null `MaterialInstanceDynamic` no call of `ChangeMaterialParams`
returns, and `BeginPlay` on a cube without a static mesh, when the instance
is not created, stops on the dereference of `MaterialInstanceDynamic`. -/
theorem C3_null_dereferences
    (Create : Option UMaterial → Option UMaterialInstanceDynamic) (d : Draws)
    (c : Character) :
    BeginPlay ⟨[]⟩ Create d { c with Cube := none } = .error .nullDeref ∧
    GetDynamicMaterialInstance Create { c with Cube := none } = .error .nullDeref ∧
    (∀ (tags : List String) (id : Nat),
      GetDynamicMaterialInstance Create { c with Cube := some ⟨tags, some ⟨id, none⟩⟩ } =
        .error .nullDeref) ∧
    (∀ r, ChangeMaterialParams d { c with MaterialInstanceDynamic := none } ≠ .ok r) ∧
    ChangeMaterialParams exDraws { exSpawned with MaterialInstanceDynamic := none } =
      .error .nullDeref ∧
    BeginPlay ⟨[⟨["Cube"], none⟩]⟩ (fun _ => none) exDraws exInit = .error .nullDeref := by
  refine ⟨?_, ?_, ?_, ?_, ?_, ?_⟩
  · simp [BeginPlay, GetAllActorsWithTag, GetDynamicMaterialInstance, deref, bind,
      Except.bind, pure, Except.pure]
  · simp [GetDynamicMaterialInstance, deref, bind, Except.bind]
  · intro tags id
    simp [GetDynamicMaterialInstance, deref, bind, Except.bind]
  · exact ChangeMaterialParams_null d _ rfl
  · simp [ChangeMaterialParams, resetPhase, bumpPhase, pickInd, exDraws, exSpawned, bIsAll1,
      scanAll1, TArrayGet, TArraySet, deref, clampTo1, bind, Except.bind, pure, Except.pure]
  · simp [BeginPlay, GetAllActorsWithTag, GetDynamicMaterialInstance, ChangeMaterialParams,
      resetPhase, exDraws, exInit, bIsAll1, scanAll1, TArrayGet, deref, bind, Except.bind,
      pure, Except.pure]

/-- C4: `MoveForward` and `MoveRight` guard the controller.  If `Controller` is
null or `Value` is 0 the call adds no movement input and returns the character
unchanged; if `Controller` is not null and `Value` is not 0 the call adds
exactly one movement input, of scale `Value`, along the unit axis of the
rotation `(0, Yaw, 0)` built from the yaw of the control rotation alone, the
X axis for `MoveForward` and the Y axis for `MoveRight`, and returns the
character unchanged. -/
theorem C4_move_guards_controller (GetUnitAxis : FRotator → EAxis → FVector) (Value : ℚ)
    (c : Character) :
    ((c.Controller = none ∨ Value = 0) →
      MoveForward GetUnitAxis Value c = (c, []) ∧ MoveRight GetUnitAxis Value c = (c, [])) ∧
    (∀ ctrl : AController, c.Controller = some ctrl → Value ≠ 0 →
      MoveForward GetUnitAxis Value c =
        (c, [EngineCall.AddMovementInput
              (GetUnitAxis ⟨0, ctrl.ControlRotation.Yaw, 0⟩ EAxis.X) Value]) ∧
      MoveRight GetUnitAxis Value c =
        (c, [EngineCall.AddMovementInput
              (GetUnitAxis ⟨0, ctrl.ControlRotation.Yaw, 0⟩ EAxis.Y) Value])) := by
  constructor
  · intro h
    cases hc : c.Controller with
    | none => simp [MoveForward, MoveRight, hc]
    | some ctrl =>
      rcases h with h | h
      · rw [hc] at h; cases h
      · simp [MoveForward, MoveRight, hc, h]
  · intro ctrl hc hv
    simp [MoveForward, MoveRight, hc, hv]

/-- Witness of C4 on the concrete character: scale 1 with a controller of yaw
90, and scale 0. -/
theorem C4_move_guards_controller_witness :
    exInit.Controller = some ⟨⟨10, 90, 5⟩⟩ ∧
    (MoveForward exUnitAxis 1 exInit =
        (exInit, [EngineCall.AddMovementInput (exUnitAxis ⟨0, 90, 0⟩ EAxis.X) 1]) ∧
      MoveRight exUnitAxis 1 exInit =
        (exInit, [EngineCall.AddMovementInput (exUnitAxis ⟨0, 90, 0⟩ EAxis.Y) 1])) ∧
    (MoveForward exUnitAxis 0 exInit = (exInit, []) ∧
      MoveRight exUnitAxis 0 exInit = (exInit, [])) :=
  ⟨rfl,
    (C4_move_guards_controller exUnitAxis 1 exInit).2 ⟨⟨10, 90, 5⟩⟩ rfl one_ne_zero,
    (C4_move_guards_controller exUnitAxis 0 exInit).1 (Or.inr rfl)⟩

/-- C5: `SetupPlayerInputComponent` fails its assertion if and only if the
input component pointer is null, and then returns no component, so nothing is
registered; on a non-null component it adds, after the bindings already there,
exactly the twelve bindings listed: the actions Jump/pressed to Jump,
Jump/released to StopJumping, ChangeMaterial/pressed to ChangeMaterialParams,
ResetVR/pressed to OnResetVR; the axes MoveForward, MoveRight, Turn, TurnRate,
LookUp, LookUpRate to MoveForward, MoveRight, AddControllerYawInput,
TurnAtRate, AddControllerPitchInput, LookUpAtRate; touch pressed to
TouchStarted and touch released to TouchStopped. -/
theorem C5_input_bindings (p : Option UInputComponent) :
    (SetupPlayerInputComponent p = .error .assertion ↔ p = none) ∧
    ((∃ e, SetupPlayerInputComponent p = .error e) ↔ p = none) ∧
    (∀ comp : UInputComponent, p = some comp →
      ∃ added : List Binding,
        SetupPlayerInputComponent p = .ok ⟨comp.Bindings ++ added⟩ ∧
        added.Perm
          [ Binding.action "Jump" .IE_Pressed .Jump,
            Binding.action "Jump" .IE_Released .StopJumping,
            Binding.action "ChangeMaterial" .IE_Pressed .ChangeMaterialParams,
            Binding.action "ResetVR" .IE_Pressed .OnResetVR,
            Binding.axis "MoveForward" .MoveForward,
            Binding.axis "MoveRight" .MoveRight,
            Binding.axis "Turn" .AddControllerYawInput,
            Binding.axis "TurnRate" .TurnAtRate,
            Binding.axis "LookUp" .AddControllerPitchInput,
            Binding.axis "LookUpRate" .LookUpAtRate,
            Binding.touch .IE_Pressed .TouchStarted,
            Binding.touch .IE_Released .TouchStopped ]) := by
  refine ⟨?_, ?_, ?_⟩
  · cases p <;> simp [SetupPlayerInputComponent]
  · cases p <;> simp [SetupPlayerInputComponent]
  · intro comp hp
    subst hp
    refine ⟨_, rfl, ?_⟩
    refine List.Perm.cons _ (List.Perm.cons _ (List.Perm.cons _ ?_))
    exact (@List.perm_append_comm _
      [ Binding.axis "MoveForward" .MoveForward,
        Binding.axis "MoveRight" .MoveRight,
        Binding.axis "Turn" .AddControllerYawInput,
        Binding.axis "TurnRate" .TurnAtRate,
        Binding.axis "LookUp" .AddControllerPitchInput,
        Binding.axis "LookUpRate" .LookUpAtRate,
        Binding.touch .IE_Pressed .TouchStarted,
        Binding.touch .IE_Released .TouchStopped ]
      [ Binding.action "ResetVR" .IE_Pressed .OnResetVR ])

/-- Witness of C5 on a component that has no binding yet. -/
theorem C5_input_bindings_witness :
    ∃ added : List Binding,
      SetupPlayerInputComponent (some ⟨[]⟩) = .ok ⟨[] ++ added⟩ ∧
      added.Perm
        [ Binding.action "Jump" .IE_Pressed .Jump,
          Binding.action "Jump" .IE_Released .StopJumping,
          Binding.action "ChangeMaterial" .IE_Pressed .ChangeMaterialParams,
          Binding.action "ResetVR" .IE_Pressed .OnResetVR,
          Binding.axis "MoveForward" .MoveForward,
          Binding.axis "MoveRight" .MoveRight,
          Binding.axis "Turn" .AddControllerYawInput,
          Binding.axis "TurnRate" .TurnAtRate,
          Binding.axis "LookUp" .AddControllerPitchInput,
          Binding.axis "LookUpRate" .LookUpAtRate,
          Binding.touch .IE_Pressed .TouchStarted,
          Binding.touch .IE_Released .TouchStopped ] :=
  (C5_input_bindings (some ⟨[]⟩)).2.2 ⟨[]⟩ rfl

/-- C7: for every `Rate` and every frame time `DeltaSeconds`, with exact
arithmetic, `TurnAtRate` adds the yaw input `Rate * BaseTurnRate * DeltaSeconds`
and nothing else, and `LookUpAtRate` adds the pitch input
`Rate * BaseLookUpRate * DeltaSeconds` and nothing else; after the constructor
both rates are 45, the input added is `45 * Rate * DeltaSeconds`, and it is 0
when `Rate` is 0. -/
theorem C7_rate_inputs (DeltaSeconds Rate : ℚ) (c init : Character) :
    TurnAtRate DeltaSeconds Rate c =
      (c, [EngineCall.AddControllerYawInput (Rate * c.BaseTurnRate * DeltaSeconds)]) ∧
    LookUpAtRate DeltaSeconds Rate c =
      (c, [EngineCall.AddControllerPitchInput (Rate * c.BaseLookUpRate * DeltaSeconds)]) ∧
    (AMyProject3Character init).BaseTurnRate = 45 ∧
    (AMyProject3Character init).BaseLookUpRate = 45 ∧
    TurnAtRate DeltaSeconds Rate (AMyProject3Character init) =
      (AMyProject3Character init,
        [EngineCall.AddControllerYawInput (45 * Rate * DeltaSeconds)]) ∧
    LookUpAtRate DeltaSeconds Rate (AMyProject3Character init) =
      (AMyProject3Character init,
        [EngineCall.AddControllerPitchInput (45 * Rate * DeltaSeconds)]) ∧
    TurnAtRate DeltaSeconds 0 (AMyProject3Character init) =
      (AMyProject3Character init, [EngineCall.AddControllerYawInput 0]) ∧
    LookUpAtRate DeltaSeconds 0 (AMyProject3Character init) =
      (AMyProject3Character init, [EngineCall.AddControllerPitchInput 0]) := by
  refine ⟨rfl, rfl, rfl, rfl, ?_, ?_, ?_, ?_⟩
  · simp only [TurnAtRate, AMyProject3Character, mul_comm Rate 45]
  · simp only [LookUpAtRate, AMyProject3Character, mul_comm Rate 45]
  · simp [TurnAtRate]
  · simp [LookUpAtRate]

end MyProject3
